import Mathlib

/-!
# Access-log pipeline of the auth proxy server (`logging.go`)

A shallow embedding of `utcMsg`, the two log writers, `logRequest` and `send`.

* Go strings that carry text are Lean `String`s (the text is taken to be valid UTF-8, so
  that scanning its bytes and scanning its characters agree); serialized payloads are
  `Bytes`.
* Calls into the Go standard library (`tls.CipherSuiteName`, `strconv.ParseFloat`,
  `json.Marshal`, `time.Duration` rendering) are fields of `Lib`; readings of the
  outside world (clock, host name) are fields of `Env` and `Time`.
* The effects of a call (lines handed to the standard logger, goroutines started)
  are collected, in program order, in the `effects` of an `Outcome`; a run-time
  panic (nil dereference) is recorded in `panicked`.
-/

namespace AuthProxy

/-! ## Data model -/

/-- Serialized payload, the `[]byte` produced by `json.Marshal`. -/
abbrev Bytes := List Nat

/-- A Go `float64`, observed through its IEEE-754 bit pattern (`math.Float64bits`). -/
structure Float64 where
  bits : Nat
  deriving DecidableEq, Repr

/-- The value `0` (positive zero). -/
def Float64.zero : Float64 := ⟨0⟩

/-- The value `+Inf`. -/
def Float64.posInf : Float64 := ⟨0x7FF0000000000000⟩

/-- The value `-Inf`. -/
def Float64.negInf : Float64 := ⟨0xFFF0000000000000⟩

/-- The two sentinel errors a `*strconv.NumError` can wrap. -/
inductive NumError where
  | ErrSyntax
  | ErrRange
  deriving DecidableEq, Repr

/-- The map type `http.Header`: canonical key to list of values. -/
abbrev Header := List (String × List String)

/-- The method `http.Header.Get` for a key already in canonical form: the first value
stored under the key, or the empty string. -/
def Header.Get (h : Header) (key : String) : String :=
  match h.lookup key with
  | some (v :: _) => v
  | _ => ""

/-- The fields of `tls.ConnectionState` read by `logRequest`. -/
structure ConnectionState where
  Version : Nat
  CipherSuite : Nat
  deriving DecidableEq, Repr

/-- The fields of `http.Request` read by `logRequest`. -/
structure Request where
  Method : String
  RequestURI : String
  Proto : String
  ContentLength : Int
  Header : Header
  RemoteAddr : String
  TLS : Option ConnectionState
  deriving DecidableEq, Repr

/-- The part of `http.ResponseWriter` used by `logRequest`: the map returned by its
`Header` method. -/
structure ResponseWriter where
  Header : Header
  deriving DecidableEq, Repr

/-- Modelled from the spec: the declaration of the broker section of the configuration is
not in `logging.go`; these are the two fields the file reads from `Config.StompConfig`. -/
structure StompConfig where
  URI : String
  Endpoint : String
  deriving DecidableEq, Repr

/-- Modelled from the spec: the declaration of the global `Config` is not in `logging.go`;
these are the fields the file reads from it. -/
structure Configuration where
  UTC : Bool
  Verbose : Int
  StompConfig : StompConfig
  LogsHTTPEndpoint : String
  LogsHTTPType : String
  LogsHTTPProducer : String
  LogsHTTPTypePrefix : String
  deriving DecidableEq, Repr

/-- Modelled from the spec: the declaration of `LogRecord` is not in `logging.go`; the
fields are those of the composite literal in `logRequest`. -/
structure LogRecord where
  Method : String
  Uri : String
  Proto : String
  Status : Int
  ContentLength : Int
  AuthProto : String
  Cipher : String
  CmsAuthCert : String
  CmsAuth : String
  Referer : String
  UserAgent : String
  XForwardedHost : String
  RemoteAddr : String
  ResponseStatus : String
  ResponseTime : Float64
  RequestTime : Float64
  deriving DecidableEq, Repr

/-- Modelled from the spec: the declaration of `HTTPRecord` (the HTTP envelope) is not in
`logging.go`; the fields are those of the composite literal in `logRequest` 
(its field `Type` is written `Type_`). -/
structure HTTPRecord where
  Producer : String
  Type_ : String
  TypePrefix : String
  Timestamp : Int
  Host : String
  Data : LogRecord
  deriving DecidableEq, Repr

/-- The Go standard-library functions called by `logging.go`. -/
structure Lib where
  /-- The function `tls.CipherSuiteName`. -/
  CipherSuiteName : Nat → String
  /-- The function `strconv.ParseFloat`: the value and the error it returns. -/
  ParseFloat : String → Float64 × Option NumError
  /-- The method `time.Duration.String` on a duration in nanoseconds. -/
  DurationString : Int → String
  /-- The method `time.Duration.Seconds` on a duration in nanoseconds. -/
  DurationSeconds : Int → Float64
  /-- The function `json.Marshal` at type `LogRecord`. -/
  MarshalLogRecord : LogRecord → Except String Bytes
  /-- The function `json.Marshal` at type `HTTPRecord`. -/
  MarshalHTTPRecord : HTTPRecord → Except String Bytes

/-- What `logRequest` reads from the outside world during one call. -/
structure Env where
  /-- Value of `time.Since(start)` when the human-readable line is built. -/
  sinceLine : Int
  /-- Value of `time.Since(start)` when the record is built. -/
  sinceRecord : Int
  /-- Result of `os.Hostname()`: the name and the error. -/
  hostname : String × Option String
  /-- Value of `time.Now().Unix()` when the envelope is built. -/
  nowUnix : Int

/-- A reading of `time.Now()`, observed through its two renderings. -/
structure Time where
  /-- Rendering `t.UTC().String()`. -/
  utcString : String
  /-- Rendering `t.String()`. -/
  localString : String
  deriving DecidableEq, Repr

/-- An observable effect of the logging code. -/
inductive Effect where
  /-- Text handed to the standard logger by `log.Printf` or `log.Println`. -/
  | log (text : String)
  /-- The statement `go send(data)`. -/
  | goSend (data : Bytes)
  /-- The statement `go stompMgr.Send(data)`. -/
  | goStompSend (data : Bytes)
  deriving DecidableEq, Repr

/-- Final state of a call of `logRequest`: the locals the claims speak about, the effects
in program order, and whether the call panicked. -/
structure Outcome where
  aproto : String
  cipher : String
  effects : List Effect
  record : Option LogRecord
  envelope : Option HTTPRecord
  panicked : Bool
  deriving DecidableEq, Repr

/-- The constant `tls.VersionSSL30`. -/
def VersionSSL30 : Nat := 0x0300
/-- The constant `tls.VersionTLS10`. -/
def VersionTLS10 : Nat := 0x0301
/-- The constant `tls.VersionTLS11`. -/
def VersionTLS11 : Nat := 0x0302
/-- The constant `tls.VersionTLS12`. -/
def VersionTLS12 : Nat := 0x0303
/-- The constant `tls.VersionTLS13`. -/
def VersionTLS13 : Nat := 0x0304

/-! ## `logRequest`

The body of `logRequest` is split at its blank-line boundaries: the TLS labels
(lines 57-76), the authentication method (77-79), the referer (83-86), the
human-readable line (80-90), the record literal (92-110), the envelope literal
(118-137), and the function itself, which strings them together and routes. -/

/-- Lines 57-76 of `logRequest`: the protocol label and the cipher label. The verb `%+v`
renders a `uint16` in decimal. -/
def tlsLabels (lib : Lib) (r : Option Request) : String × String :=
  match r with
  | some req =>
    match req.TLS with
    | some tls =>
      let aproto :=
        if tls.Version = VersionTLS10 then "TLS10"
        else if tls.Version = VersionTLS11 then "TLS11"
        else if tls.Version = VersionTLS12 then "TLS12"
        else if tls.Version = VersionTLS13 then "TLS13"
        else if tls.Version = VersionSSL30 then "SSL30"
        else "TLS version: " ++ toString tls.Version
      (aproto, lib.CipherSuiteName tls.CipherSuite)
    | none => ("No TLS", "None")
  | none => ("No TLS", "None")

/-- Lines 77-79 of `logRequest`: the value of `cauth` after the fallback to the request
header. -/
def authMethod (r : Request) (cauth : String) : String :=
  if cauth = "" then r.Header.Get "Cms-Authn-Method" else cauth

/-- Lines 83-86 of `logRequest`: `r.Referer()`, replaced by a dash when empty. -/
def refererOf (r : Request) : String :=
  let referer := r.Header.Get "Referer"
  if referer = "" then "-" else referer

/-- Lines 80-90 of `logRequest`: the text passed to `log.Printf`, given the labels, the
authentication method and the referer computed before. -/
def accessLine (lib : Lib) (env : Env) (w : ResponseWriter) (r : Request)
    (aproto cipher cauth referer : String) (status : Int) : String :=
  let authMsg := "[auth: " ++ aproto ++ " " ++ cipher ++ " \"" ++
    r.Header.Get "Cms-Auth-Cert" ++ "\" " ++ cauth ++ "]"
  let respHeader := w.Header
  let dataMsg := "[data: " ++ toString r.ContentLength ++ " in " ++
    respHeader.Get "Content-Length" ++ " out]"
  let addr := "[client: " ++ r.Header.Get "X-Forwarded-Host" ++ "] [backend: " ++
    r.RemoteAddr ++ "]"
  let refMsg := "[ref: \"" ++ referer ++ "\" \"" ++ r.Header.Get "User-Agent" ++ "\"]"
  let respMsg := "[req: " ++ lib.DurationString env.sinceLine ++ " resp: " ++
    respHeader.Get "Response-Time" ++ "]"
  addr ++ " " ++ r.Method ++ " " ++ r.RequestURI ++ " " ++ r.Proto ++ " " ++
    toString status ++ " " ++ dataMsg ++ " " ++ authMsg ++ " " ++ refMsg ++ " " ++
    respMsg ++ "\n"

/-- Lines 92-110 of `logRequest`: the parse of the response-time header, whose error is
discarded, and the `LogRecord` literal. -/
def mkLogRecord (lib : Lib) (env : Env) (w : ResponseWriter) (r : Request)
    (aproto cipher cauth referer : String) (status : Int) : LogRecord :=
  let respHeader := w.Header
  let rTime := (lib.ParseFloat (respHeader.Get "Response-Time-Seconds")).1
  { Method := r.Method
    Uri := r.RequestURI
    Proto := r.Proto
    Status := status
    ContentLength := r.ContentLength
    AuthProto := aproto
    Cipher := cipher
    CmsAuthCert := r.Header.Get "Cms-Auth-Cert"
    CmsAuth := cauth
    Referer := referer
    UserAgent := r.Header.Get "User-Agent"
    XForwardedHost := r.Header.Get "X-Forwarded-Host"
    RemoteAddr := r.RemoteAddr
    ResponseStatus := respHeader.Get "Response-Status"
    ResponseTime := rTime
    RequestTime := lib.DurationSeconds env.sinceRecord }

/-- Lines 118-137 of `logRequest`: the three labels with their defaults and the
`HTTPRecord` literal. -/
def mkHTTPRecord (Config : Configuration) (env : Env) (record : LogRecord) : HTTPRecord :=
  let hostname := env.hostname.1
  let ltype := Config.LogsHTTPType
  let ltype := if ltype = "" then "cms" else ltype
  let producer := Config.LogsHTTPProducer
  let producer := if producer = "" then "auth" else producer
  let pfx := Config.LogsHTTPTypePrefix
  let pfx := if pfx = "" then "raw" else pfx
  { Producer := producer
    Type_ := ltype
    TypePrefix := pfx
    Timestamp := env.nowUnix
    Host := hostname
    Data := record }

/-- Lines 114-117 of `logRequest`: the line logged when `os.Hostname` fails. -/
def hostnameLog (env : Env) : List Effect :=
  match env.hostname.2 with
  | some err => [Effect.log ("Unable to get hostname " ++ err ++ "\n")]
  | none => []

/-- The line logged when `json.Marshal` fails. -/
def marshalLog (err : String) : Effect :=
  Effect.log ("unable to marshal the data, error " ++ err ++ "\n")

/-- The function `logRequest`. A nil `r` is `none`; the values of `Config` and of the
outside world are passed explicitly. -/
def logRequest (lib : Lib) (Config : Configuration) (env : Env)
    (w : ResponseWriter) (r : Option Request) (cauth : String) (status : Int) : Outcome :=
  let aproto := (tlsLabels lib r).1
  let cipher := (tlsLabels lib r).2
  match r with
  | none =>
    -- `r.Header` dereferences the nil request
    ⟨aproto, cipher, [], none, none, true⟩
  | some r =>
    let cauth := authMethod r cauth
    let referer := refererOf r
    let line := accessLine lib env w r aproto cipher cauth referer status
    if Config.StompConfig.Endpoint ≠ "" then
      let record := mkLogRecord lib env w r aproto cipher cauth referer status
      if Config.LogsHTTPEndpoint ≠ "" then
        let hr := mkHTTPRecord Config env record
        match lib.MarshalHTTPRecord hr with
        | .ok data =>
          ⟨aproto, cipher, [Effect.log line] ++ hostnameLog env ++ [Effect.goSend data],
            some record, some hr, false⟩
        | .error err =>
          ⟨aproto, cipher, [Effect.log line] ++ hostnameLog env ++ [marshalLog err],
            some record, some hr, false⟩
      else if Config.StompConfig.URI ≠ "" then
        match lib.MarshalLogRecord record with
        | .ok data =>
          ⟨aproto, cipher, [Effect.log line, Effect.goStompSend data], some record, none,
            false⟩
        | .error err =>
          ⟨aproto, cipher, [Effect.log line, marshalLog err], some record, none, false⟩
      else
        ⟨aproto, cipher, [Effect.log line], some record, none, false⟩
    else
      ⟨aproto, cipher, [Effect.log line], none, none, false⟩

/-! ## `fmt.Sprintf` without operands

`utcMsg` passes its whole message to `fmt.Sprintf` as the format string, with no operands.
The definitions below follow `(*pp).doPrintf` of package `fmt` for an empty operand list,
on the characters of a format string. -/

/-- The digit loop of `parsenum`: the number read so far, whether a digit was seen, and the
unread rest. A number above `1e6` makes `parsenum` give up and skip to the end. -/
def parsenumAux (num : Nat) (isnum : Bool) : List Char → Nat × Bool × List Char
  | [] => (num, isnum, [])
  | c :: cs =>
    if c.isDigit then
      if num > 1000000 then (0, false, [])
      else parsenumAux (num * 10 + (c.toNat - 48)) true cs
    else (num, isnum, c :: cs)

/-- The function `parsenum` on the unread part of the format. -/
def parsenum (s : List Char) : Nat × Bool × List Char :=
  parsenumAux 0 false s

/-- The method `argNumber` with no operands: the unread rest, whether a well-formed index
`[n]` was found, and whether an opening bracket was seen (any index is then out of range,
so `goodArgNum` is cleared). -/
def argNumber (s : List Char) : List Char × Bool × Bool :=
  match s with
  | '[' :: tl =>
    if s.length < 3 then (tl, false, true)
    else
      match tl.indexOf? ']' with
      | none => (tl, false, true)
      | some k =>
        let inner := parsenum (tl.take k)
        (tl.drop (k + 1), inner.2.1 && inner.2.2.isEmpty, true)
  | _ => (s, false, false)

/-- The flag characters skipped after a percent sign. -/
def isFlag (c : Char) : Bool :=
  c = '#' || c = '0' || c = '+' || c = '-' || c = ' '

/-- State of `doPrintf` inside one verb: the text written so far for this verb, the
unread rest of the format, and the flags `afterIndex` and `goodArgNum`. -/
structure VerbState where
  out : List Char
  rest : List Char
  afterIndex : Bool
  goodArgNum : Bool
  deriving DecidableEq, Repr

/-- The flags and the optional argument index that open a verb. -/
def scanFlags (s : List Char) : VerbState :=
  let a := argNumber (s.dropWhile isFlag)
  ⟨[], a.1, a.2.1, !a.2.2⟩

/-- The width of a verb: a star has no operand to read (`%!(BADWIDTH)`), a number after
an index clears `goodArgNum`. -/
def scanWidth (st : VerbState) : VerbState :=
  match st.rest with
  | '*' :: tl => ⟨st.out ++ "%!(BADWIDTH)".toList, tl, false, st.goodArgNum⟩
  | s =>
    let n := parsenum s
    ⟨st.out, n.2.2, st.afterIndex, st.goodArgNum && !(st.afterIndex && n.2.1)⟩

/-- The precision of a verb, after a dot: an optional index, then a star
(`%!(BADPREC)`) or a number. -/
def scanPrecision (st : VerbState) : VerbState :=
  match st.rest with
  | '.' :: tl =>
    let good := st.goodArgNum && !st.afterIndex
    let a := argNumber tl
    let good := good && !a.2.2
    match a.1 with
    | '*' :: tl2 => ⟨st.out ++ "%!(BADPREC)".toList, tl2, false, good⟩
    | s => ⟨st.out, (parsenum s).2.2, a.2.1, good⟩
  | _ => st

/-- The argument index allowed right before the verb when none was just read. -/
def scanIndex (st : VerbState) : VerbState :=
  if st.afterIndex then st
  else
    let a := argNumber st.rest
    ⟨st.out, a.1, a.2.1, st.goodArgNum && !a.2.2⟩

/-- The verb character itself: a percent sign is written as such; with an index out of
range the verb is reported as `BADINDEX`, and otherwise, there being no operand, as
`MISSING`; a format that ends before the verb is reported as `NOVERB`. -/
def scanVerb (st : VerbState) : List Char × Option (List Char) :=
  match st.rest with
  | [] => (st.out ++ "%!(NOVERB)".toList, none)
  | verb :: rest =>
    if verb = '%' then (st.out ++ ['%'], some rest)
    else if !st.goodArgNum then
      (st.out ++ "%!".toList ++ [verb] ++ "(BADINDEX)".toList, some rest)
    else (st.out ++ "%!".toList ++ [verb] ++ "(MISSING)".toList, some rest)

/-- One verb of `doPrintf` with no operands, started after its percent sign: the text
written, and the unread rest (`none` when the format ended before a verb). -/
def directive (s : List Char) : List Char × Option (List Char) :=
  scanVerb (scanIndex (scanPrecision (scanWidth (scanFlags s))))

/-- The loop of `doPrintf` with no operands; `fuel` bounds the number of verbs. -/
def doPrintf : Nat → List Char → List Char
  | 0, _ => []
  | fuel + 1, format =>
    let lit := format.takeWhile (fun c => c ≠ '%')
    match format.dropWhile (fun c => c ≠ '%') with
    | [] => lit
    | _ :: s =>
      match directive s with
      | (out, none) => lit ++ out
      | (out, some rest) => lit ++ out ++ doPrintf fuel rest

/-- The call `fmt.Sprintf(format)` with no operands. -/
def Sprintf (format : String) : String :=
  String.mk (doPrintf (format.length + 1) format.toList)

/-! ## `utcMsg` and the log writers -/

/-- The function `utcMsg`; `now` is the reading of `time.Now()`. -/
def utcMsg (Config : Configuration) (now : Time) (data : String) : String :=
  if Config.UTC then
    Sprintf ("[" ++ now.utcString ++ "] " ++ data)
  else
    Sprintf ("[" ++ now.localString ++ "] " ++ data)

/-- The method `rotateLogWriter.Write`; `sink` is `w.RotateLogs.Write`. -/
def rotateLogWriter.Write (Config : Configuration) (now : Time)
    (sink : String → Int × Option String) (data : String) : Int × Option String :=
  sink (utcMsg Config now data)

/-- The method `logWriter.Write`; `sink` is `fmt.Print` on standard output. -/
def logWriter.Write (Config : Configuration) (now : Time)
    (sink : String → Int × Option String) (data : String) : Int × Option String :=
  sink (utcMsg Config now data)

/-! ## `send` -/

/-- The fields of `http.Response` read by `send`. -/
structure Response where
  Proto : String
  Status : String
  deriving DecidableEq, Repr

/-- An observable effect of `send`. -/
inductive SendEffect where
  /-- One call `http.Post(url, contentType, body)`. -/
  | post (url : String) (contentType : String) (body : Bytes)
  /-- Text handed to the standard logger. -/
  | log (text : String)
  /-- A read of a field of the response object. -/
  | readResponse
  deriving DecidableEq, Repr

/-- Final state of a call of `send`. -/
structure SendOutcome where
  effects : List SendEffect
  panicked : Bool
  deriving DecidableEq, Repr

/-- The function `send`; `httpPost` is `http.Post`, returning the response pointer and the
error. -/
def send (Config : Configuration)
    (httpPost : String → String → Bytes → Option Response × Option String)
    (data : Bytes) : SendOutcome :=
  let rurl := Config.LogsHTTPEndpoint
  let ctype := "application/json"
  let res := httpPost rurl ctype data
  let resp := res.1
  let err := res.2
  let errLog : List SendEffect :=
    match err with
    | some e => [SendEffect.log ("unable to send data to " ++ rurl ++ ", error " ++ e ++ "\n")]
    | none => []
  if Config.Verbose > 0 then
    match resp with
    | some resp =>
      ⟨[SendEffect.post rurl ctype data] ++ errLog ++
        [SendEffect.readResponse,
         SendEffect.log (rurl ++ " " ++ resp.Proto ++ " " ++ resp.Status ++ "\n")], false⟩
    | none =>
      -- `resp.Proto` dereferences the nil response
      ⟨[SendEffect.post rurl ctype data] ++ errLog ++ [SendEffect.readResponse], true⟩
  else
    ⟨[SendEffect.post rurl ctype data] ++ errLog, false⟩

/-! ## Observations on outcomes -/

/-- Whether an effect starts a background task (`go send` or `go stompMgr.Send`). -/
def Effect.isDispatch : Effect → Bool
  | .goSend _ => true
  | .goStompSend _ => true
  | .log _ => false

/-- The background dispatches of a call, in program order. -/
def dispatches (out : Outcome) : List Effect :=
  out.effects.filter Effect.isDispatch

/-! ## The line templates of the specification -/

namespace Spec

/-- Template `[client: %v] [backend: %v]`. -/
def addr (forwardedHost remoteAddr : String) : String :=
  "[client: " ++ forwardedHost ++ "] [backend: " ++ remoteAddr ++ "]"

/-- Template `[data: %v in %v out]`. -/
def dataMsg (contentLength : Int) (respContentLength : String) : String :=
  "[data: " ++ toString contentLength ++ " in " ++ respContentLength ++ " out]"

/-- Template `[auth: %v %v "%v" %v]`. -/
def authMsg (aproto cipher cert method : String) : String :=
  "[auth: " ++ aproto ++ " " ++ cipher ++ " \"" ++ cert ++ "\" " ++ method ++ "]"

/-- Template `[ref: "%s" "%v"]`. -/
def refMsg (referer userAgent : String) : String :=
  "[ref: \"" ++ referer ++ "\" \"" ++ userAgent ++ "\"]"

/-- Template `[req: %v resp: %v]`. -/
def respMsg (elapsed responseTime : String) : String :=
  "[req: " ++ elapsed ++ " resp: " ++ responseTime ++ "]"

/-- Template `<addr> <method> <uri> <proto> <status> <dataMsg> <authMsg> <refMsg> <respMsg>`
followed by a newline. -/
def line (addr method uri proto : String) (status : Int)
    (dataMsg authMsg refMsg respMsg : String) : String :=
  addr ++ " " ++ method ++ " " ++ uri ++ " " ++ proto ++ " " ++ toString status ++ " " ++
    dataMsg ++ " " ++ authMsg ++ " " ++ refMsg ++ " " ++ respMsg ++ "\n"

end Spec

/-- The human-readable line the specification prescribes for a request, given the two TLS
labels, the authentication method and the referer to print. -/
def specLineOf (lib : Lib) (env : Env) (w : ResponseWriter) (r : Request)
    (aproto cipher method referer : String) (status : Int) : String :=
  Spec.line (Spec.addr (r.Header.Get "X-Forwarded-Host") r.RemoteAddr)
    r.Method r.RequestURI r.Proto status
    (Spec.dataMsg r.ContentLength (w.Header.Get "Content-Length"))
    (Spec.authMsg aproto cipher (r.Header.Get "Cms-Auth-Cert") method)
    (Spec.refMsg referer (r.Header.Get "User-Agent"))
    (Spec.respMsg (lib.DurationString env.sinceLine) (w.Header.Get "Response-Time"))

/-- The part of the documented behaviour of `strconv.ParseFloat` used below: a syntax error
comes with the value `0`, a range error with an infinity. -/
structure ParseFloatSpec (pf : String → Float64 × Option NumError) : Prop where
  malformed : ∀ s, (pf s).2 = some NumError.ErrSyntax → (pf s).1 = Float64.zero
  outOfRange : ∀ s, (pf s).2 = some NumError.ErrRange →
    (pf s).1 = Float64.posInf ∨ (pf s).1 = Float64.negInf

/-! ## Sample inputs -/

/-- A sample library. On the inputs used in the examples it answers as the Go library
does: `ParseFloat` rejects `abc` and the empty string with a syntax error and value `0`,
reports a range error with `+Inf` for `1e999`, and parses `0.25`; `json.Marshal` refuses a
record whose response time is infinite; a duration below one microsecond is rendered in
nanoseconds. -/
def sampleLib : Lib where
  CipherSuiteName := fun id =>
    if id = 0x1301 then "TLS_AES_128_GCM_SHA256"
    else if id = 0xc02f then "TLS_ECDHE_RSA_WITH_AES_128_GCM_SHA256"
    else "0x0000"
  ParseFloat := fun s =>
    if s = "1e999" then (Float64.posInf, some NumError.ErrRange)
    else if s = "0.25" then (⟨0x3FD0000000000000⟩, none)
    else (Float64.zero, some NumError.ErrSyntax)
  DurationString := fun d => toString d ++ "ns"
  DurationSeconds := fun _ => Float64.zero
  MarshalLogRecord := fun rec_ =>
    if rec_.ResponseTime = Float64.posInf ∨ rec_.ResponseTime = Float64.negInf then
      .error "json: unsupported value"
    else .ok ((rec_.Method ++ " " ++ rec_.Uri ++ " " ++ rec_.Referer).toList.map Char.toNat)
  MarshalHTTPRecord := fun hr =>
    if hr.Data.ResponseTime = Float64.posInf ∨ hr.Data.ResponseTime = Float64.negInf then
      .error "json: unsupported value"
    else .ok ((hr.Producer ++ " " ++ hr.Type_ ++ " " ++ hr.TypePrefix ++ " " ++ hr.Host ++
      " " ++ hr.Data.Method ++ " " ++ hr.Data.Uri).toList.map Char.toNat)

/-- A sample reading of the outside world. -/
def sampleEnv : Env where
  sinceLine := 900
  sinceRecord := 950
  hostname := ("proxy01", none)
  nowUnix := 1700000000

/-- A plaintext `GET /status` request without a referer. -/
def plainRequest : Request where
  Method := "GET"
  RequestURI := "/status"
  Proto := "HTTP/1.1"
  ContentLength := 0
  Header := [("User-Agent", ["curl/8.0"])]
  RemoteAddr := "10.0.0.7:5000"
  TLS := none

/-- A request over TLS 1.3 with a referer. -/
def tlsRequest : Request where
  Method := "GET"
  RequestURI := "/data"
  Proto := "HTTP/2.0"
  ContentLength := 12
  Header := [("Referer", ["https://cern.ch/"]), ("User-Agent", ["curl/8.0"])]
  RemoteAddr := "10.0.0.8:5000"
  TLS := some ⟨VersionTLS13, 0x1301⟩

/-- A response writer with a response-time header that is out of the float range. -/
def hugeTimeWriter : ResponseWriter where
  Header := [("Response-Time-Seconds", ["1e999"])]

/-- A response writer with an unparseable response-time header. -/
def badTimeWriter : ResponseWriter where
  Header := [("Response-Time-Seconds", ["abc"])]

/-- A configuration with no shipping at all. -/
def noShipping : Configuration where
  UTC := true
  Verbose := 0
  StompConfig := ⟨"", ""⟩
  LogsHTTPEndpoint := ""
  LogsHTTPType := ""
  LogsHTTPProducer := ""
  LogsHTTPTypePrefix := ""

/-- A configuration with both sinks configured and shipping enabled. -/
def bothSinks : Configuration where
  UTC := true
  Verbose := 1
  StompConfig := ⟨"stomp://broker:61613", "/topic/cms.auth"⟩
  LogsHTTPEndpoint := "http://logs.example/ingest"
  LogsHTTPType := ""
  LogsHTTPProducer := "proxy"
  LogsHTTPTypePrefix := ""

/-- A configuration with the broker only. -/
def brokerOnly : Configuration where
  UTC := false
  Verbose := 0
  StompConfig := ⟨"stomp://broker:61613", "/topic/cms.auth"⟩
  LogsHTTPEndpoint := ""
  LogsHTTPType := ""
  LogsHTTPProducer := ""
  LogsHTTPTypePrefix := ""

/-- A configuration with an HTTP log endpoint but an empty broker endpoint. -/
def httpOnly : Configuration where
  UTC := false
  Verbose := 0
  StompConfig := ⟨"", ""⟩
  LogsHTTPEndpoint := "http://logs.example/ingest"
  LogsHTTPType := ""
  LogsHTTPProducer := ""
  LogsHTTPTypePrefix := ""

/-! ## The branches of `logRequest` -/

section Branches

variable (lib : Lib) (Config : Configuration) (env : Env) (w : ResponseWriter)
  (r : Request) (cauth : String) (status : Int)

/-- The human-readable line of a call on a non-nil request. -/
def lineOf : String :=
  accessLine lib env w r (tlsLabels lib (some r)).1 (tlsLabels lib (some r)).2
    (authMethod r cauth) (refererOf r) status

/-- The record of a call on a non-nil request. -/
def recordOf : LogRecord :=
  mkLogRecord lib env w r (tlsLabels lib (some r)).1 (tlsLabels lib (some r)).2
    (authMethod r cauth) (refererOf r) status

theorem logRequest_nil :
    logRequest lib Config env w none cauth status =
      ⟨"No TLS", "None", [], none, none, true⟩ := by
  simp [logRequest, tlsLabels]

theorem logRequest_disabled (hE : Config.StompConfig.Endpoint = "") :
    logRequest lib Config env w (some r) cauth status =
      ⟨(tlsLabels lib (some r)).1, (tlsLabels lib (some r)).2,
        [Effect.log (lineOf lib env w r cauth status)], none, none, false⟩ := by
  simp [logRequest, lineOf, hE]

theorem logRequest_http_ok (hE : Config.StompConfig.Endpoint ≠ "")
    (hH : Config.LogsHTTPEndpoint ≠ "") (data : Bytes)
    (hM : lib.MarshalHTTPRecord
      (mkHTTPRecord Config env (recordOf lib env w r cauth status)) = .ok data) :
    logRequest lib Config env w (some r) cauth status =
      ⟨(tlsLabels lib (some r)).1, (tlsLabels lib (some r)).2,
        [Effect.log (lineOf lib env w r cauth status)] ++ hostnameLog env ++
          [Effect.goSend data],
        some (recordOf lib env w r cauth status),
        some (mkHTTPRecord Config env (recordOf lib env w r cauth status)), false⟩ := by
  unfold recordOf at hM
  simp [logRequest, lineOf, recordOf, hE, hH, hM]

theorem logRequest_http_error (hE : Config.StompConfig.Endpoint ≠ "")
    (hH : Config.LogsHTTPEndpoint ≠ "") (err : String)
    (hM : lib.MarshalHTTPRecord
      (mkHTTPRecord Config env (recordOf lib env w r cauth status)) = .error err) :
    logRequest lib Config env w (some r) cauth status =
      ⟨(tlsLabels lib (some r)).1, (tlsLabels lib (some r)).2,
        [Effect.log (lineOf lib env w r cauth status)] ++ hostnameLog env ++
          [marshalLog err],
        some (recordOf lib env w r cauth status),
        some (mkHTTPRecord Config env (recordOf lib env w r cauth status)), false⟩ := by
  unfold recordOf at hM
  simp [logRequest, lineOf, recordOf, hE, hH, hM]

theorem logRequest_broker_ok (hE : Config.StompConfig.Endpoint ≠ "")
    (hH : Config.LogsHTTPEndpoint = "") (hU : Config.StompConfig.URI ≠ "") (data : Bytes)
    (hM : lib.MarshalLogRecord (recordOf lib env w r cauth status) = .ok data) :
    logRequest lib Config env w (some r) cauth status =
      ⟨(tlsLabels lib (some r)).1, (tlsLabels lib (some r)).2,
        [Effect.log (lineOf lib env w r cauth status), Effect.goStompSend data],
        some (recordOf lib env w r cauth status), none, false⟩ := by
  unfold recordOf at hM
  simp [logRequest, lineOf, recordOf, hE, hH, hU, hM]

theorem logRequest_broker_error (hE : Config.StompConfig.Endpoint ≠ "")
    (hH : Config.LogsHTTPEndpoint = "") (hU : Config.StompConfig.URI ≠ "") (err : String)
    (hM : lib.MarshalLogRecord (recordOf lib env w r cauth status) = .error err) :
    logRequest lib Config env w (some r) cauth status =
      ⟨(tlsLabels lib (some r)).1, (tlsLabels lib (some r)).2,
        [Effect.log (lineOf lib env w r cauth status), marshalLog err],
        some (recordOf lib env w r cauth status), none, false⟩ := by
  unfold recordOf at hM
  simp [logRequest, lineOf, recordOf, hE, hH, hU, hM]

theorem logRequest_idle (hE : Config.StompConfig.Endpoint ≠ "")
    (hH : Config.LogsHTTPEndpoint = "") (hU : Config.StompConfig.URI = "") :
    logRequest lib Config env w (some r) cauth status =
      ⟨(tlsLabels lib (some r)).1, (tlsLabels lib (some r)).2,
        [Effect.log (lineOf lib env w r cauth status)],
        some (recordOf lib env w r cauth status), none, false⟩ := by
  simp [logRequest, lineOf, recordOf, hE, hH, hU]

/-- The dispatches of a list of logger lines followed by one more effect. -/
theorem filter_hostnameLog (env : Env) :
    (hostnameLog env).filter Effect.isDispatch = [] := by
  unfold hostnameLog
  cases env.hostname.2 <;> simp [Effect.isDispatch]

end Branches

/-! ## Theorems about `logRequest` -/

/-- The protocol label in the outcome is the one computed at lines 57-76. -/
theorem logRequest_aproto (lib : Lib) (Config : Configuration) (env : Env)
    (w : ResponseWriter) (r : Option Request) (cauth : String) (status : Int) :
    (logRequest lib Config env w r cauth status).aproto = (tlsLabels lib r).1 := by
  cases r with
  | none => simp [logRequest]
  | some r =>
    simp only [logRequest]
    split_ifs <;> (try split) <;> rfl

/-- The cipher label in the outcome is the one computed at lines 57-76. -/
theorem logRequest_cipher (lib : Lib) (Config : Configuration) (env : Env)
    (w : ResponseWriter) (r : Option Request) (cauth : String) (status : Int) :
    (logRequest lib Config env w r cauth status).cipher = (tlsLabels lib r).2 := by
  cases r with
  | none => simp [logRequest]
  | some r =>
    simp only [logRequest]
    split_ifs <;> (try split) <;> rfl

/-- C1: the protocol and cipher labels computed by `logRequest` follow the fixed table:
versions 1.0, 1.1, 1.2, 1.3 and SSL 3.0 give `TLS10`, `TLS11`, `TLS12`, `TLS13`, `SSL30`,
any other version `v` gives `TLS version: ` followed by the decimal rendering of `v`, in
all these cases the cipher label is the cipher-suite name of the connection's suite; a
request without a TLS connection (and a nil request) gives `No TLS` and `None`. -/
theorem logRequest_tls_labels (lib : Lib) (Config : Configuration) (env : Env)
    (w : ResponseWriter) (r : Request) (cauth : String) (status : Int)
    (v suite : Nat) :
    let withTLS := fun (ver : Nat) =>
      logRequest lib Config env w (some { r with TLS := some ⟨ver, suite⟩ }) cauth status
    (withTLS 0x0301).aproto = "TLS10" ∧
    (withTLS 0x0302).aproto = "TLS11" ∧
    (withTLS 0x0303).aproto = "TLS12" ∧
    (withTLS 0x0304).aproto = "TLS13" ∧
    (withTLS 0x0300).aproto = "SSL30" ∧
    ((v < 0x0300 ∨ 0x0304 < v) → (withTLS v).aproto = "TLS version: " ++ toString v) ∧
    (withTLS v).cipher = lib.CipherSuiteName suite ∧
    ((logRequest lib Config env w (some { r with TLS := none }) cauth status).aproto,
     (logRequest lib Config env w (some { r with TLS := none }) cauth status).cipher)
      = ("No TLS", "None") ∧
    ((logRequest lib Config env w none cauth status).aproto,
     (logRequest lib Config env w none cauth status).cipher) = ("No TLS", "None") := by
  intro withTLS
  simp only [withTLS, logRequest_aproto, logRequest_cipher]
  refine ⟨?_, ?_, ?_, ?_, ?_, ?_, ?_, ?_, ?_⟩
  · simp [tlsLabels, VersionTLS10]
  · simp [tlsLabels, VersionTLS10, VersionTLS11]
  · simp [tlsLabels, VersionTLS10, VersionTLS11, VersionTLS12]
  · simp [tlsLabels, VersionTLS10, VersionTLS11, VersionTLS12, VersionTLS13]
  · simp [tlsLabels, VersionTLS10, VersionTLS11, VersionTLS12, VersionTLS13, VersionSSL30]
  · intro hv
    have h0 : v ≠ 0x0300 := by omega
    have h1 : v ≠ 0x0301 := by omega
    have h2 : v ≠ 0x0302 := by omega
    have h3 : v ≠ 0x0303 := by omega
    have h4 : v ≠ 0x0304 := by omega
    simp [tlsLabels, VersionTLS10, VersionTLS11, VersionTLS12, VersionTLS13, VersionSSL30,
      h0, h1, h2, h3, h4]
  · simp [tlsLabels]
  · simp [tlsLabels]
  · simp [tlsLabels]

/-- A run of C1 on a TLS connection with the unlisted version `0x0305`. -/
theorem logRequest_tls_labels_witness :
    (0x0305 < 0x0300 ∨ 0x0304 < 0x0305) ∧
    (logRequest sampleLib bothSinks sampleEnv ⟨[]⟩
      (some { tlsRequest with TLS := some ⟨0x0305, 0x1301⟩ }) "" 200).aproto
      = "TLS version: 773" := by
  have h := (logRequest_tls_labels sampleLib bothSinks sampleEnv ⟨[]⟩ tlsRequest "" 200
    0x0305 0x1301).2.2.2.2.2.1 (by decide)
  exact ⟨by decide, by simpa using h⟩

/-- Every call on a non-nil request first hands the human-readable line to the logger. -/
theorem logRequest_effects_head (lib : Lib) (Config : Configuration) (env : Env)
    (w : ResponseWriter) (r : Request) (cauth : String) (status : Int) :
    ∃ rest, (logRequest lib Config env w (some r) cauth status).effects =
      Effect.log (lineOf lib env w r cauth status) :: rest := by
  simp only [logRequest, lineOf]
  split_ifs <;> (try split) <;> simp

/-- The record exists exactly when the broker endpoint is configured, and is `recordOf`. -/
theorem logRequest_record (lib : Lib) (Config : Configuration) (env : Env)
    (w : ResponseWriter) (r : Request) (cauth : String) (status : Int) :
    (logRequest lib Config env w (some r) cauth status).record =
      if Config.StompConfig.Endpoint ≠ "" then some (recordOf lib env w r cauth status)
      else none := by
  simp only [logRequest, recordOf]
  split_ifs <;> (try split) <;> rfl

/-- The envelope exists exactly when the broker endpoint and the HTTP endpoint are both
configured, and wraps `recordOf`. -/
theorem logRequest_envelope (lib : Lib) (Config : Configuration) (env : Env)
    (w : ResponseWriter) (r : Request) (cauth : String) (status : Int) :
    (logRequest lib Config env w (some r) cauth status).envelope =
      if Config.StompConfig.Endpoint ≠ "" ∧ Config.LogsHTTPEndpoint ≠ "" then
        some (mkHTTPRecord Config env (recordOf lib env w r cauth status))
      else none := by
  simp only [logRequest, recordOf]
  split_ifs <;> (try split) <;> simp_all

/-- A call on a non-nil request does not panic. -/
theorem logRequest_no_panic (lib : Lib) (Config : Configuration) (env : Env)
    (w : ResponseWriter) (r : Request) (cauth : String) (status : Int) :
    (logRequest lib Config env w (some r) cauth status).panicked = false := by
  simp only [logRequest]
  split_ifs <;> (try split) <;> rfl

/-- End-to-end scenario 1 of the specification: a plaintext `GET /status` with status 200
and no shipping configured gives one human-readable line, holding `No TLS` and `None`, and
nothing else. -/
theorem scenario_plaintext_no_shipping :
    logRequest sampleLib noShipping sampleEnv ⟨[]⟩ (some plainRequest) "" 200 =
      ⟨"No TLS", "None",
        [Effect.log ("[client: ] [backend: 10.0.0.7:5000] GET /status HTTP/1.1 200 " ++
          "[data: 0 in  out] [auth: No TLS None \"\" ] [ref: \"-\" \"curl/8.0\"] " ++
          "[req: 900ns resp: ]\n")],
        none, none, false⟩ := by
  decide

/-- End-to-end scenario 3 of the specification: with the broker only, one broker send
carries the serialization of the bare record. -/
theorem scenario_broker_only :
    dispatches (logRequest sampleLib brokerOnly sampleEnv ⟨[]⟩ (some tlsRequest) "x509" 200)
      = [Effect.goStompSend ("GET /data https://cern.ch/".toList.map Char.toNat)] := by
  decide

/-- The source builds the line exactly as the templates of the specification do. -/
theorem accessLine_eq_specLineOf (lib : Lib) (env : Env) (w : ResponseWriter) (r : Request)
    (aproto cipher method referer : String) (status : Int) :
    accessLine lib env w r aproto cipher method referer status =
      specLineOf lib env w r aproto cipher method referer status := by
  rfl

/-- C2: with structured shipping enabled (`StompConfig.Endpoint` non-empty) and
serialization succeeding, `logRequest` dispatches to at most one sink by strict
precedence: with `LogsHTTPEndpoint` non-empty it starts exactly one `send` on the
serialized HTTP envelope and no broker send, whatever `StompConfig.URI` holds; otherwise
with `StompConfig.URI` non-empty it starts exactly one broker send on the serialization of
the bare record; otherwise it dispatches nothing. -/
theorem logRequest_sink_precedence (lib : Lib) (Config : Configuration) (env : Env)
    (w : ResponseWriter) (r : Request) (cauth : String) (status : Int)
    (hE : Config.StompConfig.Endpoint ≠ "") :
    let out := logRequest lib Config env w (some r) cauth status
    (Config.LogsHTTPEndpoint ≠ "" →
      ∃ hr, out.envelope = some hr ∧ out.record = some hr.Data ∧
        ∀ data, lib.MarshalHTTPRecord hr = .ok data →
          dispatches out = [Effect.goSend data]) ∧
    (Config.LogsHTTPEndpoint = "" → Config.StompConfig.URI ≠ "" →
      ∃ record, out.record = some record ∧ out.envelope = none ∧
        ∀ data, lib.MarshalLogRecord record = .ok data →
          dispatches out = [Effect.goStompSend data]) ∧
    (Config.LogsHTTPEndpoint = "" → Config.StompConfig.URI = "" →
      dispatches out = []) := by
  intro out
  refine ⟨?_, ?_, ?_⟩
  · intro hH
    refine ⟨mkHTTPRecord Config env (recordOf lib env w r cauth status), ?_, ?_, ?_⟩
    · simp [out, logRequest_envelope, hE, hH]
    · simp [out, logRequest_record, hE, mkHTTPRecord]
    · intro data hM
      simp [out, logRequest_http_ok lib Config env w r cauth status hE hH data hM,
        dispatches, Effect.isDispatch, filter_hostnameLog]
  · intro hH hU
    refine ⟨recordOf lib env w r cauth status, ?_, ?_, ?_⟩
    · simp [out, logRequest_record, hE]
    · simp [out, logRequest_envelope, hH]
    · intro data hM
      simp [out, logRequest_broker_ok lib Config env w r cauth status hE hH hU data hM,
        dispatches, Effect.isDispatch]
  · intro hH hU
    simp [out, logRequest_idle lib Config env w r cauth status hE hH hU,
      dispatches, Effect.isDispatch]

/-- A run of C2 with both sinks configured: one `send`, no broker send. -/
theorem logRequest_sink_precedence_witness :
    bothSinks.StompConfig.Endpoint ≠ "" ∧ bothSinks.LogsHTTPEndpoint ≠ "" ∧
    bothSinks.StompConfig.URI ≠ "" ∧
    ∃ hr, (logRequest sampleLib bothSinks sampleEnv ⟨[]⟩ (some tlsRequest) "x509" 200).envelope
        = some hr ∧
      ∀ data, sampleLib.MarshalHTTPRecord hr = .ok data →
        dispatches (logRequest sampleLib bothSinks sampleEnv ⟨[]⟩ (some tlsRequest) "x509" 200)
          = [Effect.goSend data] := by
  obtain ⟨hr, h1, _, h3⟩ :=
    (logRequest_sink_precedence sampleLib bothSinks sampleEnv ⟨[]⟩ tlsRequest "x509" 200
      (by decide)).1 (by decide)
  exact ⟨by decide, by decide, by decide, hr, h1, h3⟩

/-- C3: when `StompConfig.Endpoint` is empty, `logRequest` starts no background task,
neither `send` nor the broker send, whatever the other settings and the request are. -/
theorem logRequest_no_dispatch_when_disabled (lib : Lib) (Config : Configuration)
    (env : Env) (w : ResponseWriter) (r : Option Request) (cauth : String) (status : Int)
    (hE : Config.StompConfig.Endpoint = "") :
    dispatches (logRequest lib Config env w r cauth status) = [] ∧
    ∀ data, Effect.goSend data ∉ (logRequest lib Config env w r cauth status).effects ∧
      Effect.goStompSend data ∉ (logRequest lib Config env w r cauth status).effects := by
  cases r with
  | none => simp [logRequest_nil, dispatches]
  | some r =>
    simp [logRequest_disabled lib Config env w r cauth status hE, dispatches,
      Effect.isDispatch]

/-- A run of C3 with an HTTP log endpoint configured and an empty broker endpoint. -/
theorem logRequest_no_dispatch_when_disabled_witness :
    httpOnly.StompConfig.Endpoint = "" ∧ httpOnly.LogsHTTPEndpoint ≠ "" ∧
    dispatches (logRequest sampleLib httpOnly sampleEnv ⟨[]⟩ (some tlsRequest) "x509" 200)
      = [] :=
  ⟨by decide, by decide,
    (logRequest_no_dispatch_when_disabled sampleLib httpOnly sampleEnv ⟨[]⟩
      (some tlsRequest) "x509" 200 (by decide)).1⟩

/-- C4, as stated, fails: with `LogsHTTPEndpoint` set, serialization succeeding, but
`StompConfig.Endpoint` empty, `logRequest` builds no envelope, dispatches nothing, and does
nothing beyond the human-readable line although the HTTP log endpoint is configured. -/
theorem logRequest_http_endpoint_alone_ships_nothing :
    httpOnly.LogsHTTPEndpoint ≠ "" ∧
    (∀ hr, hr.Data.ResponseTime = Float64.zero →
      ∃ data, sampleLib.MarshalHTTPRecord hr = .ok data) ∧
    (recordOf sampleLib sampleEnv ⟨[]⟩ tlsRequest "x509" 200).ResponseTime = Float64.zero ∧
    (logRequest sampleLib httpOnly sampleEnv ⟨[]⟩ (some tlsRequest) "x509" 200).envelope
      = none ∧
    dispatches (logRequest sampleLib httpOnly sampleEnv ⟨[]⟩ (some tlsRequest) "x509" 200)
      = [] ∧
    (logRequest sampleLib httpOnly sampleEnv ⟨[]⟩ (some tlsRequest) "x509" 200).effects
      = [Effect.log (lineOf sampleLib sampleEnv ⟨[]⟩ tlsRequest "x509" 200)] := by
  refine ⟨by decide, ?_, ?_, ?_, ?_, ?_⟩
  · intro hr h
    simp [sampleLib, h, Float64.zero, Float64.posInf, Float64.negInf]
  · simp [recordOf, mkLogRecord, sampleLib, Header.Get, List.lookup]
  · simp [logRequest_disabled, httpOnly]
  · simp [logRequest_disabled, httpOnly, dispatches, Effect.isDispatch]
  · simp [logRequest_disabled, httpOnly]

/-- C4, amended: when `StompConfig.Endpoint` and `LogsHTTPEndpoint` are both non-empty,
whatever `StompConfig.URI` holds, `logRequest` selects the HTTP sink: it wraps the record
in an envelope and, provided serialization succeeds, dispatches exactly one payload to
`send`; and it does nothing beyond the human-readable line exactly when
`StompConfig.Endpoint` is empty or both `LogsHTTPEndpoint` and `StompConfig.URI` are. -/
theorem logRequest_http_sink_selected (lib : Lib) (Config : Configuration) (env : Env)
    (w : ResponseWriter) (r : Request) (cauth : String) (status : Int) :
    let out := logRequest lib Config env w (some r) cauth status
    (Config.StompConfig.Endpoint ≠ "" → Config.LogsHTTPEndpoint ≠ "" →
      ∃ hr, out.envelope = some hr ∧ out.record = some hr.Data ∧
        ∀ data, lib.MarshalHTTPRecord hr = .ok data →
          dispatches out = [Effect.goSend data]) ∧
    (out.effects = [Effect.log (lineOf lib env w r cauth status)] ↔
      (Config.StompConfig.Endpoint = "" ∨
        (Config.LogsHTTPEndpoint = "" ∧ Config.StompConfig.URI = ""))) := by
  intro out
  refine ⟨?_, ?_⟩
  · intro hE hH
    refine ⟨mkHTTPRecord Config env (recordOf lib env w r cauth status), ?_, ?_, ?_⟩
    · simp [out, logRequest_envelope, hE, hH]
    · simp [out, logRequest_record, hE, mkHTTPRecord]
    · intro data hM
      simp [out, logRequest_http_ok lib Config env w r cauth status hE hH data hM,
        dispatches, Effect.isDispatch, filter_hostnameLog]
  · by_cases hE : Config.StompConfig.Endpoint = ""
    · simp [out, logRequest_disabled lib Config env w r cauth status hE, hE]
    · by_cases hH : Config.LogsHTTPEndpoint = ""
      · by_cases hU : Config.StompConfig.URI = ""
        · simp [out, logRequest_idle lib Config env w r cauth status hE hH hU, hH, hU]
        · cases hM : lib.MarshalLogRecord (recordOf lib env w r cauth status) with
          | ok data =>
            simp [out, logRequest_broker_ok lib Config env w r cauth status hE hH hU data hM,
              hE, hU]
          | error err =>
            simp [out, logRequest_broker_error lib Config env w r cauth status hE hH hU err hM,
              hE, hU]
      · cases hM : lib.MarshalHTTPRecord
            (mkHTTPRecord Config env (recordOf lib env w r cauth status)) with
        | ok data =>
          simp [out, logRequest_http_ok lib Config env w r cauth status hE hH data hM,
            hE, hH]
        | error err =>
          simp [out, logRequest_http_error lib Config env w r cauth status hE hH err hM,
            hE, hH]

/-- A run of amended C4 with both endpoints configured. -/
theorem logRequest_http_sink_selected_witness :
    bothSinks.StompConfig.Endpoint ≠ "" ∧ bothSinks.LogsHTTPEndpoint ≠ "" ∧
    ∃ hr, (logRequest sampleLib bothSinks sampleEnv ⟨[]⟩ (some plainRequest) "" 200).envelope
        = some hr ∧
      ∀ data, sampleLib.MarshalHTTPRecord hr = .ok data →
        dispatches (logRequest sampleLib bothSinks sampleEnv ⟨[]⟩ (some plainRequest) "" 200)
          = [Effect.goSend data] := by
  obtain ⟨hr, h1, _, h3⟩ :=
    (logRequest_http_sink_selected sampleLib bothSinks sampleEnv ⟨[]⟩ plainRequest "" 200).1
      (by decide) (by decide)
  exact ⟨by decide, by decide, hr, h1, h3⟩

/-- C5: for every non-nil request, status and configuration, `logRequest` hands the logger
the line `<addr> <method> <uri> <proto> <status> <dataMsg> <authMsg> <refMsg> <respMsg>`
with a final newline, the sub-fields following the templates of the specification (the
authentication method being `cauth`, or the `Cms-Authn-Method` header when `cauth` is
empty, and the referer a dash when empty); the line is the first effect of every call, and
it is the same under any two configurations. -/
theorem logRequest_line_unconditional (lib : Lib) (Config Config' : Configuration)
    (env : Env) (w : ResponseWriter) (r : Request) (cauth : String) (status : Int) :
    let out := logRequest lib Config env w (some r) cauth status
    let out' := logRequest lib Config' env w (some r) cauth status
    out.panicked = false ∧
    out.effects.head? = some (Effect.log
      (specLineOf lib env w r out.aproto out.cipher
        (if cauth = "" then r.Header.Get "Cms-Authn-Method" else cauth)
        (if r.Header.Get "Referer" = "" then "-" else r.Header.Get "Referer") status)) ∧
    out.effects.head? = out'.effects.head? := by
  intro out out'
  obtain ⟨rest, h⟩ := logRequest_effects_head lib Config env w r cauth status
  obtain ⟨rest', h'⟩ := logRequest_effects_head lib Config' env w r cauth status
  refine ⟨logRequest_no_panic lib Config env w r cauth status, ?_, ?_⟩
  · simp only [out, h, List.head?_cons, logRequest_aproto, logRequest_cipher]
    rfl
  · simp only [out, out', h, h', List.head?_cons]

/-- C7: whenever `logRequest` builds an HTTP envelope (that is, when the broker endpoint
and the HTTP log endpoint are both configured), its `Producer`, `Type` and `TypePrefix`
are the configured values when these are non-empty and `auth`, `cms`, `raw` when they are
empty, and its `Data` is the record built for the request. -/
theorem logRequest_envelope_labels (lib : Lib) (Config : Configuration) (env : Env)
    (w : ResponseWriter) (r : Request) (cauth : String) (status : Int) :
    let out := logRequest lib Config env w (some r) cauth status
    ((∃ hr, out.envelope = some hr) ↔
      (Config.StompConfig.Endpoint ≠ "" ∧ Config.LogsHTTPEndpoint ≠ "")) ∧
    ∀ hr, out.envelope = some hr →
      (Config.LogsHTTPProducer ≠ "" → hr.Producer = Config.LogsHTTPProducer) ∧
      (Config.LogsHTTPProducer = "" → hr.Producer = "auth") ∧
      (Config.LogsHTTPType ≠ "" → hr.Type_ = Config.LogsHTTPType) ∧
      (Config.LogsHTTPType = "" → hr.Type_ = "cms") ∧
      (Config.LogsHTTPTypePrefix ≠ "" → hr.TypePrefix = Config.LogsHTTPTypePrefix) ∧
      (Config.LogsHTTPTypePrefix = "" → hr.TypePrefix = "raw") ∧
      out.record = some hr.Data := by
  intro out
  by_cases hc : Config.StompConfig.Endpoint ≠ "" ∧ Config.LogsHTTPEndpoint ≠ ""
  · have he : out.envelope =
        some (mkHTTPRecord Config env (recordOf lib env w r cauth status)) := by
      simp only [out, logRequest_envelope, if_pos hc]
    refine ⟨⟨fun _ => hc, fun _ => ⟨_, he⟩⟩, ?_⟩
    intro hr hhr
    rw [he] at hhr
    cases hhr
    refine ⟨?_, ?_, ?_, ?_, ?_, ?_, ?_⟩
    · intro h; simp [mkHTTPRecord, h]
    · intro h; simp [mkHTTPRecord, h]
    · intro h; simp [mkHTTPRecord, h]
    · intro h; simp [mkHTTPRecord, h]
    · intro h; simp [mkHTTPRecord, h]
    · intro h; simp [mkHTTPRecord, h]
    · simp [out, logRequest_record, hc.1, mkHTTPRecord]
  · have he : out.envelope = none := by
      simp only [out, logRequest_envelope, if_neg hc]
    refine ⟨⟨fun ⟨hr, h⟩ => ?_, fun h => absurd h hc⟩, ?_⟩
    · rw [he] at h; cases h
    · intro hr h; rw [he] at h; cases h

/-- A run of C7: producer overridden, type and type prefix left to their defaults. -/
theorem logRequest_envelope_labels_witness :
    ∃ hr, (logRequest sampleLib bothSinks sampleEnv ⟨[]⟩ (some tlsRequest) "x509" 200).envelope
        = some hr ∧
      hr.Producer = "proxy" ∧ hr.Type_ = "cms" ∧ hr.TypePrefix = "raw" := by
  have hall := logRequest_envelope_labels sampleLib bothSinks sampleEnv ⟨[]⟩ tlsRequest
    "x509" 200
  obtain ⟨hr, hhr⟩ := hall.1.2 ⟨by decide, by decide⟩
  obtain ⟨h1, _, _, h4, _, h6, _⟩ := hall.2 hr hhr
  exact ⟨hr, hhr, h1 (by decide), h4 (by decide), h6 (by decide)⟩

/-- C9, as stated, fails: for the header value `1e999`, a well-formed numeral outside the
float range, `ParseFloat` reports a range error together with `+Inf`; `logRequest` drops
the error and keeps the value, so the record has `ResponseTime` equal to `+Inf`, not `0`. -/
theorem logRequest_range_error_keeps_infinity :
    hugeTimeWriter.Header.Get "Response-Time-Seconds" = "1e999" ∧
    (sampleLib.ParseFloat "1e999").2 = some NumError.ErrRange ∧
    (logRequest sampleLib brokerOnly sampleEnv hugeTimeWriter (some tlsRequest)
      "x509" 200).record.map (fun record => record.ResponseTime) = some Float64.posInf ∧
    Float64.posInf ≠ Float64.zero := by
  refine ⟨by decide, by decide, ?_, by decide⟩
  simp [logRequest_record, brokerOnly, recordOf, mkLogRecord, hugeTimeWriter, sampleLib,
    Header.Get, List.lookup]

/-- C9, amended: whenever `logRequest` builds the record, its `ResponseTime` is the value
returned by `ParseFloat` on the `Response-Time-Seconds` header, the error being dropped and
the call completing normally: that value is `0` when the header is rejected with a syntax
error, an infinity when it is a well-formed numeral outside the float range, and the
parsed value when the header parses. -/
theorem logRequest_response_time (lib : Lib) (Config : Configuration) (env : Env)
    (w : ResponseWriter) (r : Request) (cauth : String) (status : Int)
    (hpf : ParseFloatSpec lib.ParseFloat) (hE : Config.StompConfig.Endpoint ≠ "") :
    let out := logRequest lib Config env w (some r) cauth status
    let parsed := lib.ParseFloat (w.Header.Get "Response-Time-Seconds")
    out.panicked = false ∧
    ∃ record, out.record = some record ∧
      record.ResponseTime = parsed.1 ∧
      (parsed.2 = some NumError.ErrSyntax → record.ResponseTime = Float64.zero) ∧
      (parsed.2 = some NumError.ErrRange →
        record.ResponseTime = Float64.posInf ∨ record.ResponseTime = Float64.negInf) := by
  intro out parsed
  refine ⟨logRequest_no_panic lib Config env w r cauth status,
    recordOf lib env w r cauth status, ?_, rfl, ?_, ?_⟩
  · simp [out, logRequest_record, hE]
  · intro h
    exact hpf.malformed _ h
  · intro h
    exact hpf.outOfRange _ h

/-- The sample library meets the documented behaviour of `ParseFloat`. -/
theorem sampleLib_parseFloatSpec : ParseFloatSpec sampleLib.ParseFloat := by
  constructor
  · intro s h
    simp only [sampleLib] at h ⊢
    split_ifs at h ⊢ <;> simp_all
  · intro s h
    simp only [sampleLib] at h ⊢
    split_ifs at h ⊢ <;> simp_all

/-- A run of amended C9 on the unparseable header value `abc`: the record holds `0`. -/
theorem logRequest_response_time_witness :
    ParseFloatSpec sampleLib.ParseFloat ∧ brokerOnly.StompConfig.Endpoint ≠ "" ∧
    (sampleLib.ParseFloat (badTimeWriter.Header.Get "Response-Time-Seconds")).2
      = some NumError.ErrSyntax ∧
    ∃ record, (logRequest sampleLib brokerOnly sampleEnv badTimeWriter (some tlsRequest)
        "x509" 200).record = some record ∧ record.ResponseTime = Float64.zero := by
  have hs : (sampleLib.ParseFloat (badTimeWriter.Header.Get "Response-Time-Seconds")).2
      = some NumError.ErrSyntax := by decide
  obtain ⟨_, record, h1, _, h3, _⟩ :=
    logRequest_response_time sampleLib brokerOnly sampleEnv badTimeWriter tlsRequest
      "x509" 200 sampleLib_parseFloatSpec (by decide)
  exact ⟨sampleLib_parseFloatSpec, by decide, hs, record, h1, h3 hs⟩

/-- C10: the `Referer` field of the record built by `logRequest`, and the referer printed
in the human-readable line, is a dash when the request's referer is empty and the
request's referer unchanged otherwise. -/
theorem logRequest_referer_default (lib : Lib) (Config : Configuration) (env : Env)
    (w : ResponseWriter) (r : Request) (cauth : String) (status : Int) :
    let out := logRequest lib Config env w (some r) cauth status
    let referer := r.Header.Get "Referer"
    ((∃ record, out.record = some record) ↔ Config.StompConfig.Endpoint ≠ "") ∧
    (∀ record, out.record = some record →
      (referer = "" → record.Referer = "-") ∧
      (referer ≠ "" → record.Referer = referer)) ∧
    (referer = "" → out.effects.head? = some (Effect.log
      (specLineOf lib env w r out.aproto out.cipher (authMethod r cauth) "-" status))) ∧
    (referer ≠ "" → out.effects.head? = some (Effect.log
      (specLineOf lib env w r out.aproto out.cipher (authMethod r cauth) referer status))) := by
  intro out referer
  obtain ⟨rest, h⟩ := logRequest_effects_head lib Config env w r cauth status
  have hrec := logRequest_record lib Config env w r cauth status
  refine ⟨?_, ?_, ?_, ?_⟩
  · by_cases hE : Config.StompConfig.Endpoint = ""
    · simp [out, hrec, hE]
    · simp [out, hrec, hE]
  · intro record hr
    by_cases hE : Config.StompConfig.Endpoint = ""
    · simp [out, hrec, hE] at hr
    · simp only [out, hrec, hE, ne_eq, not_false_eq_true, if_true, Option.some.injEq] at hr
      subst hr
      constructor
      · intro h0
        simp [recordOf, mkLogRecord, refererOf, show r.Header.Get "Referer" = "" from h0]
      · intro h0
        simp [recordOf, mkLogRecord, refererOf, show ¬ r.Header.Get "Referer" = "" from h0,
          referer]
  · intro h0
    simp only [out, h, List.head?_cons, logRequest_aproto, logRequest_cipher, lineOf,
      accessLine_eq_specLineOf, refererOf, show r.Header.Get "Referer" = "" from h0, if_true]
  · intro h0
    simp only [out, h, List.head?_cons, logRequest_aproto, logRequest_cipher, lineOf,
      accessLine_eq_specLineOf, refererOf, show ¬ r.Header.Get "Referer" = "" from h0,
      if_false, referer]

/-- A run of C10 on a request without a referer and on one with a referer. -/
theorem logRequest_referer_default_witness :
    plainRequest.Header.Get "Referer" = "" ∧ tlsRequest.Header.Get "Referer" ≠ "" ∧
    (∀ record, (logRequest sampleLib brokerOnly sampleEnv ⟨[]⟩ (some plainRequest)
        "" 200).record = some record → record.Referer = "-") ∧
    (∀ record, (logRequest sampleLib brokerOnly sampleEnv ⟨[]⟩ (some tlsRequest)
        "" 200).record = some record → record.Referer = "https://cern.ch/") := by
  refine ⟨by decide, by decide, ?_, ?_⟩
  · intro record h
    exact ((logRequest_referer_default sampleLib brokerOnly sampleEnv ⟨[]⟩ plainRequest
      "" 200).2.1 record h).1 (by decide)
  · intro record h
    have := ((logRequest_referer_default sampleLib brokerOnly sampleEnv ⟨[]⟩ tlsRequest
      "" 200).2.1 record h).2 (by decide)
    simpa [tlsRequest, Header.Get, List.lookup] using this

/-! ## Theorems about `send` -/

/-- After a failed POST that left no response object, a positive `Verbose` makes `send`
read the response all the same, which panics. -/
theorem send_error_verbose_panics (Config : Configuration)
    (httpPost : String → String → Bytes → Option Response × Option String) (data : Bytes)
    (hV : Config.Verbose > 0)
    (hresp : (httpPost Config.LogsHTTPEndpoint "application/json" data).1 = none) :
    (send Config httpPost data).panicked = true ∧
    SendEffect.readResponse ∈ (send Config httpPost data).effects := by
  simp [send, hV, hresp]

/-- After a failed POST, `send` with `Verbose` not positive logs the error and stops. -/
theorem send_error_quiet (Config : Configuration)
    (httpPost : String → String → Bytes → Option Response × Option String) (data : Bytes)
    (hV : ¬ Config.Verbose > 0) (err : String)
    (herr : (httpPost Config.LogsHTTPEndpoint "application/json" data).2 = some err) :
    send Config httpPost data =
      ⟨[SendEffect.post Config.LogsHTTPEndpoint "application/json" data,
        SendEffect.log ("unable to send data to " ++ Config.LogsHTTPEndpoint ++ ", error " ++
          err ++ "\n")], false⟩ := by
  simp [send, hV, herr]

/-- C8, on the code: with `Verbose = 1` and a POST that fails with a transport error and no
response object, `send` logs the error, then reads the nil response and panics, where the
claim has it stop without reading the response. -/
theorem send_reads_nil_response_after_error :
    bothSinks.Verbose = 1 ∧
    send bothSinks (fun _ _ _ => (none, some "connection refused")) [123, 125] =
      ⟨[SendEffect.post "http://logs.example/ingest" "application/json" [123, 125],
        SendEffect.log
          "unable to send data to http://logs.example/ingest, error connection refused\n",
        SendEffect.readResponse], true⟩ := by
  refine ⟨rfl, ?_⟩
  simp [send, bothSinks]

/-! ## `Sprintf`: the fuel is enough -/

theorem parsenumAux_length (s : List Char) :
    ∀ (num : Nat) (isnum : Bool), (parsenumAux num isnum s).2.2.length ≤ s.length := by
  induction s with
  | nil => intro num isnum; simp [parsenumAux]
  | cons c cs ih =>
    intro num isnum
    simp only [parsenumAux]
    split_ifs
    · simp
    · exact Nat.le_succ_of_le (ih _ _)
    · simp

theorem argNumber_length (s : List Char) : (argNumber s).1.length ≤ s.length := by
  unfold argNumber
  split
  · split_ifs
    · simp
    · split
      · simp
      · simp only [List.length_drop, List.length_cons]
        omega
  · exact Nat.le_refl _

theorem scanFlags_length (s : List Char) : (scanFlags s).rest.length ≤ s.length := by
  simp only [scanFlags]
  exact Nat.le_trans (argNumber_length _) (List.dropWhile_sublist _).length_le

theorem scanWidth_length (st : VerbState) : (scanWidth st).rest.length ≤ st.rest.length := by
  unfold scanWidth
  split
  · rename_i h; simp [h]
  · exact parsenumAux_length _ _ _

theorem scanPrecision_length (st : VerbState) :
    (scanPrecision st).rest.length ≤ st.rest.length := by
  unfold scanPrecision
  split
  · rename_i tl h
    have ha := argNumber_length tl
    simp only [h, List.length_cons]
    split
    · rename_i tl2 h2
      simp only [h2, List.length_cons] at ha
      dsimp only
      omega
    · exact Nat.le_succ_of_le (Nat.le_trans (parsenumAux_length _ _ _) ha)
  · exact Nat.le_refl _

theorem scanIndex_length (st : VerbState) : (scanIndex st).rest.length ≤ st.rest.length := by
  unfold scanIndex
  split_ifs
  · exact Nat.le_refl _
  · exact argNumber_length _

theorem scanVerb_length (st : VerbState) (out rest : List Char)
    (h : scanVerb st = (out, some rest)) : rest.length < st.rest.length := by
  unfold scanVerb at h
  split at h
  · simp at h
  · rename_i verb tl hst
    rw [hst]
    split_ifs at h <;> simp only [Prod.mk.injEq, Option.some.injEq] at h <;>
      (rw [← h.2]; simp)

theorem directive_length (s out rest : List Char)
    (h : directive s = (out, some rest)) : rest.length < s.length := by
  unfold directive at h
  have h1 := scanVerb_length _ _ _ h
  have h2 := scanIndex_length (scanPrecision (scanWidth (scanFlags s)))
  have h3 := scanPrecision_length (scanWidth (scanFlags s))
  have h4 := scanWidth_length (scanFlags s)
  have h5 := scanFlags_length s
  omega

/-- Any two amounts of fuel above the length of the format give the same text: the fuel
that `Sprintf` supplies never runs out. -/
theorem doPrintf_fuel (f1 : Nat) :
    ∀ (f2 : Nat) (format : List Char), format.length < f1 → format.length < f2 →
      doPrintf f1 format = doPrintf f2 format := by
  induction f1 with
  | zero => intro f2 format h; omega
  | succ n ih =>
    intro f2 format h1 h2
    cases f2 with
    | zero => omega
    | succ m =>
      simp only [doPrintf]
      split
      · rfl
      · rename_i c s hs
        have hlen : s.length + 1 ≤ format.length := by
          have := (List.dropWhile_sublist (fun c => decide (c ≠ '%')) (l := format)).length_le
          rw [hs] at this
          simpa using this
        cases hd : directive s with
        | mk out rest =>
          cases rest with
          | none => rfl
          | some rest =>
            have := directive_length s out rest hd
            simp only
            rw [ih m rest (by omega) (by omega)]

/-- A format without a percent sign is returned unchanged. -/
theorem Sprintf_plain (format : String) (h : '%' ∉ format.toList) :
    Sprintf format = format := by
  have ht : format.toList.takeWhile (fun c => decide (c ≠ '%')) = format.toList := by
    rw [List.takeWhile_eq_self_iff]
    intro c hc
    have : c ≠ '%' := fun e => h (e ▸ hc)
    simpa using this
  have hd : format.toList.dropWhile (fun c => decide (c ≠ '%')) = [] := by
    rw [List.dropWhile_eq_nil_iff]
    intro c hc
    have : c ≠ '%' := fun e => h (e ▸ hc)
    simpa using this
  simp only [Sprintf, doPrintf, ht, hd]
  rfl

/-! ## Theorems about `utcMsg` -/

/-- When neither the timestamp nor the data holds a percent sign, `utcMsg` returns the
bracketed timestamp, a blank and the data unchanged; the timestamp is the UTC rendering
when `Config.UTC` is set and the local rendering otherwise. -/
theorem utcMsg_plain (Config : Configuration) (now : Time) (data : String)
    (hu : '%' ∉ now.utcString.toList) (hl : '%' ∉ now.localString.toList)
    (hd : '%' ∉ data.toList) :
    utcMsg Config now data =
      "[" ++ (if Config.UTC then now.utcString else now.localString) ++ "] " ++ data := by
  unfold utcMsg
  split_ifs
  · apply Sprintf_plain
    simp only [String.toList] at hu hd
    simp [hu, hd]
  · apply Sprintf_plain
    simp only [String.toList] at hl hd
    simp [hl, hd]

/-- C6, on the code: the message is used as a format string, so a percent sign in the
data is rewritten. For the data `GET /a%20b` and a newline, `utcMsg` and both writers
produce `GET /a%!b(MISSING)` after the prefix, not the supplied bytes. -/
theorem utcMsg_rewrites_percent :
    let now : Time := ⟨"2026-01-02 03:04:05.000000006 +0000 UTC",
      "2026-01-02 04:04:05.000000006 +0100 CET m=+0.000012345"⟩
    utcMsg bothSinks now "GET /a%20b\n" =
      "[2026-01-02 03:04:05.000000006 +0000 UTC] GET /a%!b(MISSING)\n" ∧
    utcMsg bothSinks now "GET /a%20b\n" ≠
      "[" ++ "2026-01-02 03:04:05.000000006 +0000 UTC" ++ "] " ++ "GET /a%20b\n" ∧
    logWriter.Write bothSinks now (fun text => (text.length, none)) "GET /a%20b\n" =
      (61, none) ∧
    rotateLogWriter.Write bothSinks now (fun text => (text.length, none)) "GET /a%20b\n" =
      (61, none) := by
  decide

end AuthProxy
